import Mathlib

/-!
Verification development for the poc-sprite pipeline: a shallow embedding of
the sprite generation client (comfyui_client.py), the sheet packer
(sprite_packer.py) and the generation/validation driver (generate_sprites.py),
together with theorems settling the specified properties.

Conventions of the embedding:
- Python functions that can raise are modelled as `Except String` values whose
  error strings are the exception messages of the source.
- Machine integers are modelled as `Nat`; Python float arithmetic occurring in
  the similarity score and the scaling factor is modelled exactly with `Rat`
  (no property proved here depends on float rounding).
- Network responses, the websocket event stream and the image resampler are
  inputs of the embedded functions: the code under analysis is everything the
  source does with them.
-/

namespace PocSprite

/-! ## Raster image model (PIL images as used by the source)

A pixel carries four 8-bit channels.  For images whose PIL mode has fewer
bands (such as L or LA), the leading fields stand for that modes bands in
order (for LA: field `r` is the L band and field `g` is the A band); the
`numBands` function below gives the number of bands PIL reports for the
modes occurring in this pipeline. -/

structure Pixel where
  r : Fin 256
  g : Fin 256
  b : Fin 256
  a : Fin 256
deriving DecidableEq

structure Img where
  width : Nat
  height : Nat
  mode : String
  pix : Nat → Nat → Pixel

/-- A fresh, fully transparent RGBA canvas, as built by Image.new("RGBA", size, (0,0,0,0)). -/
def Img.new (w h : Nat) : Img :=
  ⟨w, h, "RGBA", fun _ _ => ⟨0, 0, 0, 0⟩⟩

/-- Rounded linear interpolation of one channel: value v over value w at source
alpha a, the fixed-point mix PIL applies for intermediate mask values. -/
def mixChannel (v w a : Nat) : Fin 256 :=
  ⟨(v * a + w * (255 - a) + 127) / 255 % 256, Nat.mod_lt _ (by norm_num)⟩

/-- Combination of a source pixel over a destination pixel when pasting with the
source itself as mask: where the mask (source alpha) is 255 the source is copied
as-is, where it is 0 the destination is preserved, and intermediate values mix
the two pixels including their alpha channels (PIL documented paste-with-mask
behaviour).  The theorems below rely only on the 0 and 255 cases. -/
def maskCombine (src dst : Pixel) : Pixel :=
  if src.a.val = 255 then src
  else if src.a.val = 0 then dst
  else
    ⟨mixChannel src.r.val dst.r.val src.a.val,
     mixChannel src.g.val dst.g.val src.a.val,
     mixChannel src.b.val dst.b.val src.a.val,
     mixChannel src.a.val dst.a.val src.a.val⟩

/-- PIL conversion of one pixel to mode RGBA, applied by paste when the
pasted images mode differs from the canvas mode: an RGB pixel becomes
(R, G, B, 255), an LA pixel (stored here as r = L, g = A) becomes
(L, L, L, A), and a single-band pixel becomes (L, L, L, 255).  Palette modes
(P, PA) carry no palette table in this embedding; their stored first field is
taken to be the palette-resolved luminance, so they convert like L and LA. -/
def toRGBA (mode : String) (p : Pixel) : Pixel :=
  if mode = "RGBA" then p
  else if mode = "RGB" then ⟨p.r, p.g, p.b, 255⟩
  else if mode = "LA" ∨ mode = "PA" then ⟨p.r, p.r, p.r, p.g⟩
  else ⟨p.r, p.r, p.r, 255⟩

/-- PIL Image.paste of `im` onto `canvas` at offset `(ox, oy)`.  A source
whose mode differs from the canvas mode is first converted to the canvas
mode — every canvas the source pastes onto is RGBA, so the conversion is
`toRGBA` (the identity on an RGBA source).  `useMask` is true when the
source calls paste with the pasted image itself as the mask
(alpha-respecting paste; only ever done with an RGBA source), false for a
plain region copy. -/
def paste (canvas im : Img) (ox oy : Nat) (useMask : Bool) : Img :=
  { width := canvas.width
    height := canvas.height
    mode := canvas.mode
    pix := fun x y =>
      if ox ≤ x ∧ x < ox + im.width ∧ oy ≤ y ∧ y < oy + im.height then
        let src := toRGBA im.mode (im.pix (x - ox) (y - oy))
        if useMask then maskCombine src (canvas.pix x y) else src
      else canvas.pix x y }

/-! ## sprite_packer.py -/

/-- One entry of the per-frame metadata list built by SpriteSheetPacker.pack. -/
structure FrameMeta where
  x : Nat
  y : Nat
  w : Nat
  h : Nat
  duration : Nat
deriving DecidableEq

/-- The metadata dictionary returned by SpriteSheetPacker.pack (a single
animation name mapped to its frame list, as the source builds it). -/
structure SheetMeta where
  animationName : String
  frames : List FrameMeta
  entityType : String
  spriteSize : Nat × Nat
  totalFrames : Nat

/-- One step of the packing loop: resize the frame to the first frames size if
it differs, paste it at its grid cell, and append its metadata entry. -/
def packStep (resize : Img → Nat → Nat → Img) (sw sh cols : Nat)
    (acc : Img × List FrameMeta) (p : Nat × Img) : Img × List FrameMeta :=
  let i := p.1
  let frame := p.2
  let frame := if frame.width = sw ∧ frame.height = sh then frame else resize frame sw sh
  let x := (i % cols) * sw
  let y := (i / cols) * sh
  (paste acc.1 frame x y false, acc.2 ++ [⟨x, y, sw, sh, 150⟩])

/-- SpriteSheetPacker.pack.  `resize` stands for PIL Image.resize with LANCZOS
resampling (only reached when a frame differs in size from the first frame).
Raises ValueError("Cannot pack empty frame list") on an empty frame list. -/
def pack (resize : Img → Nat → Nat → Img) (frames : List Img)
    (entity_name animation_name : String) : Except String (Img × SheetMeta) :=
  match frames with
  | [] => .error "Cannot pack empty frame list"
  | f0 :: _ =>
    let sw := f0.width
    let sh := f0.height
    let num_frames := frames.length
    let cols := if num_frames > 1 then 2 else 1
    let rows := (num_frames + cols - 1) / cols
    let base := Img.new (sw * cols) (sh * rows)
    let packed := frames.enum.foldl (packStep resize sw sh cols) (base, [])
    .ok (packed.1, ⟨animation_name, packed.2, entity_name, (sw, sh), num_frames⟩)

/-- The pasting stage shared by both branches of normalize_sprite: a transparent
canvas of the target size with the (possibly rescaled) image pasted centered,
using the image itself as mask exactly when its mode is RGBA. -/
def normalizePaste (tw th : Nat) (img : Img) : Img :=
  paste (Img.new tw th) img ((tw - img.width) / 2) ((th - img.height) / 2)
    (img.mode == "RGBA")

/-- SpriteSheetPacker.normalize_sprite.  `resize` again stands for PIL
Image.resize with LANCZOS.  The aspect-preserving scale factor is float
arithmetic in the source, modelled exactly with rationals; Python int()
truncation of the nonnegative products is Rat.floor.  When the input size
differs from the target and a source dimension is zero, the scale computation
divides by zero, which Python raises as a ZeroDivisionError. -/
def normalize_sprite (resize : Img → Nat → Nat → Img) (image : Img)
    (tw th : Nat) : Except String Img :=
  if image.width = tw ∧ image.height = th then
    .ok (normalizePaste tw th image)
  else if image.width = 0 ∨ image.height = 0 then
    .error "division by zero"
  else
    let scale : Rat := min ((tw : Rat) / (image.width : Rat)) ((th : Rat) / (image.height : Rat))
    let nw := (scale * (image.width : Rat)).floor.toNat
    let nh := (scale * (image.height : Rat)).floor.toNat
    .ok (normalizePaste tw th (resize image nw nh))

/-! ## generate_sprites.py: validation -/

/-- Number of bands PIL reports for the image modes relevant to this pipeline
(mode "RGBA" has 4, "RGB" 3, "LA" and "PA" 2, single-channel modes 1). -/
def numBands (mode : String) : Nat :=
  if mode = "RGBA" then 4
  else if mode = "RGB" then 3
  else if mode = "LA" ∨ mode = "PA" then 2
  else 1

/-- Channel `c` of a pixel as a plain Nat (band order as stored in Pixel). -/
def channel (c : Nat) (p : Pixel) : Nat :=
  match c with
  | 0 => p.r.val
  | 1 => p.g.val
  | 2 => p.b.val
  | _ => p.a.val

/-- All pixels of an image in row-major order. -/
def pixList (img : Img) : List Pixel :=
  (List.range img.height).flatMap (fun y => (List.range img.width).map (fun x => img.pix x y))

/-- Count of pixels whose channel `c` has value `k` (one histogram bin). -/
def histBin (img : Img) (c k : Nat) : Nat :=
  (pixList img).countP (fun p => channel c p == k)

/-- PIL Image.histogram(): for each band, 256 bin counts, bands concatenated. -/
def histogram (img : Img) : List Nat :=
  (List.range (numBands img.mode)).flatMap
    (fun c => (List.range 256).map (fun k => histBin img c k))

/-- sum(min(a, b) for a, b in zip(h1, h2)): zip truncates to the shorter list. -/
def minSum : List Nat → List Nat → Nat
  | a :: as, b :: bs => min a b + minSum as bs
  | _, _ => 0

/-- The loop summing the pairwise histogram-intersection scores of adjacent
frames.  Python divides by sum(h1) with float division; a zero sum raises
ZeroDivisionError at the first such pair. -/
def pairSims : List (List Nat) → Except String Rat
  | h1 :: h2 :: rest =>
    if h1.sum = 0 then .error "division by zero"
    else
      match pairSims (h2 :: rest) with
      | .error e => .error e
      | .ok s => .ok (((minSum h1 h2 : Nat) : Rat) / ((h1.sum : Nat) : Rat) + s)
  | _ => .ok 0

/-- The fields of the dictionary validate_sprites returns for a non-empty
frame list. -/
structure ValidationOut where
  size_consistent : Bool
  has_transparency : Bool
  frame_count : Nat
  visual_similarity : Rat
  passes : Bool
deriving DecidableEq

/-- Result of validate_sprites: either the early dictionary
going with an empty frame list, or the full validation dictionary. -/
inductive ValidationResult where
  | noFrames
  | result (r : ValidationOut)
deriving DecidableEq

/-- generate_sprites.validate_sprites.  The empty list returns the dictionary
with passes False and an error marker; otherwise size consistency,
transparency and, for two or more frames, the adjacent-pair histogram
similarity are computed, the last being the only step that can raise. -/
def validate_sprites (frames : List Img) : Except String ValidationResult :=
  match frames with
  | [] => .ok .noFrames
  | f0 :: _ =>
    let size_consistent := frames.all (fun f => f.width == f0.width && f.height == f0.height)
    let has_transparency := frames.all (fun f => f.mode == "RGBA")
    let n := frames.length
    if n > 1 then
      match pairSims (frames.map histogram) with
      | .error e => .error e
      | .ok s =>
        let sim := s / ((n - 1 : Nat) : Rat)
        .ok (.result ⟨size_consistent, has_transparency, n, sim,
          size_consistent && has_transparency && decide (sim > 1/2)⟩)
    else
      .ok (.result ⟨size_consistent, has_transparency, n, 1,
        size_consistent && has_transparency && decide ((1 : Rat) > 1/2)⟩)

/-! ## comfyui_client.py -/

/-- Image bytes as returned by the /view endpoint. -/
abbrev ByteL := List Nat

/-- A value appearing in a workflow node input: an integer, a float (exact),
a string, or a reference [node-id, output-slot] to another node. -/
inductive WInput where
  | nat (n : Nat)
  | rat (q : Rat)
  | str (s : String)
  | ref (node : String) (slot : Nat)
deriving DecidableEq

/-- One workflow node: its class_type and its ordered input dictionary. -/
structure WNode where
  class_type : String
  inputs : List (String × WInput)
deriving DecidableEq

abbrev Workflow := List (String × WNode)

/-- ComfyUIClient._create_workflow: the fixed seven-node graph, with only the
prompt texts, the seed and the latent resolution varying. -/
def create_workflow (prompt negative_prompt : String) (seed : Nat)
    (width height : Nat) : Workflow :=
  [("3", ⟨"KSampler",
      [("seed", .nat seed), ("steps", .nat 15), ("cfg", .rat 7.5),
       ("sampler_name", .str "euler_a"), ("scheduler", .str "normal"),
       ("denoise", .nat 1), ("model", .ref "4" 0), ("positive", .ref "6" 0),
       ("negative", .ref "7" 0), ("latent_image", .ref "5" 0)]⟩),
   ("4", ⟨"CheckpointLoaderSimple",
      [("ckpt_name", .str "v1-5-pruned-emaonly.safetensors")]⟩),
   ("5", ⟨"EmptyLatentImage",
      [("width", .nat width), ("height", .nat height), ("batch_size", .nat 1)]⟩),
   ("6", ⟨"CLIPTextEncode", [("text", .str prompt), ("clip", .ref "4" 1)]⟩),
   ("7", ⟨"CLIPTextEncode", [("text", .str negative_prompt), ("clip", .ref "4" 1)]⟩),
   ("8", ⟨"VAEDecode", [("samples", .ref "3" 0), ("vae", .ref "4" 2)]⟩),
   ("9", ⟨"SaveImage", [("filename_prefix", .str "poc_sprite"), ("images", .ref "8" 0)]⟩)]

/-- A message arriving on the websocket tracking channel.  The two dictionary
lookups the source performs on an "executing" message can each be absent,
hence the Option fields; every other message type is `other`. -/
inductive WsMsg where
  | executing (node : Option String) (promptId : Option String)
  | execError (payload : String)
  | other
deriving DecidableEq

/-- ComfyUIClient._wait_for_completion.  The event channel is the list of
messages in arrival order; the deadline is modelled by `fuel`, the number of
messages that arrive before the timeout timer fires (when the channel is
exhausted, or fuel runs out, the timer wins the race and the source raises
the timeout exception).  Completion: an "executing" message whose data has
node None and prompt_id equal to the tracked id.  An "execution_error"
message raises with its payload. -/
def wait_for_completion (prompt_id : String) : Nat → List WsMsg → Except String Unit
  | 0, _ => .error "Timeout waiting for image generation"
  | _ + 1, [] => .error "Timeout waiting for image generation"
  | fuel + 1, m :: rest =>
    match m with
    | .executing node mpid =>
      if node = none ∧ mpid = some prompt_id then .ok ()
      else wait_for_completion prompt_id fuel rest
    | .execError payload => .error ("Execution error: " ++ payload)
    | .other => wait_for_completion prompt_id fuel rest

/-- Whether a message terminates tracking: the completion sentinel for this
prompt id, or any execution error. -/
def isTerminal (prompt_id : String) : WsMsg → Bool
  | .executing node mpid => node == none && mpid == some prompt_id
  | .execError _ => true
  | .other => false

/-- Outcome of tracking as a function of the first terminating message
observed before the deadline (if any). -/
def terminalResult : Option WsMsg → Except String Unit
  | some (.execError payload) => .error ("Execution error: " ++ payload)
  | some _ => .ok ()
  | none => .error "Timeout waiting for image generation"

/-- One image descriptor from a history output node; subfolder and type are
optional in the backend response (the source defaults them to "" and
"output"). -/
structure ImgDesc where
  filename : String
  subfolder : Option String
  itype : Option String
deriving DecidableEq

/-- The query parameters the source sends to /view for a descriptor. -/
def viewParams (d : ImgDesc) : String × String × String :=
  (d.filename, d.subfolder.getD "", d.itype.getD "output")

/-- One output node of a history record: its "images" key may be absent. -/
structure NodeOutput where
  images : Option (List ImgDesc)
deriving DecidableEq

/-- One history record: its outputs dictionary in backend report order. -/
structure HistoryRecord where
  outputs : List (String × NodeOutput)
deriving DecidableEq

/-- Dictionary lookup (first binding wins, like a Python dict keyed uniquely). -/
def assocFind : List (String × α) → String → Option α
  | [], _ => none
  | (k, v) :: rest, key => if k = key then some v else assocFind rest key

/-- history.get(prompt_id, {}).get("outputs", {}). -/
def outputsOf (history : List (String × HistoryRecord)) (prompt_id : String) :
    List (String × NodeOutput) :=
  match assocFind history prompt_id with
  | some r => r.outputs
  | none => []

/-- The inner retrieval loop: try each image descriptor in order, returning the
first whose /view request succeeds (`view` maps request parameters to the
response bytes when the status is 200, none otherwise). -/
def scanImages (view : String × String × String → Option ByteL) :
    List ImgDesc → Option ByteL
  | [] => none
  | d :: rest =>
    match view (viewParams d) with
    | some b => some b
    | none => scanImages view rest

/-- The outer loop over output nodes: nodes without an "images" key are
skipped; within a node the descriptors are tried in order; on failure the
scan moves to the next node. -/
def scanOutputs (view : String × String × String → Option ByteL) :
    List (String × NodeOutput) → Option ByteL
  | [] => none
  | (_, out) :: rest =>
    match out.images with
    | none => scanOutputs view rest
    | some imgs =>
      match scanImages view imgs with
      | some b => some b
      | none => scanOutputs view rest

/-- All image descriptors of an outputs dictionary, flattened in report order. -/
def allDescs (outputs : List (String × NodeOutput)) : List ImgDesc :=
  outputs.flatMap (fun p => p.2.images.getD [])

/-- The result of the retrieval stage as a function of a descriptor list: bytes
of the first descriptor whose retrieval succeeds, else the single error the
source raises. -/
def descsResult (view : String × String × String → Option ByteL)
    (ds : List ImgDesc) : Except String ByteL :=
  match scanImages view ds with
  | some b => .ok b
  | none => .error "No images found in output"

/-- ComfyUIClient._get_generated_image: fails on a non-200 history response;
otherwise scans the history records outputs and returns the first
successfully retrieved image, raising "No images found in output" when the
scan finds nothing. -/
def get_generated_image (prompt_id : String) (historyStatus : Nat)
    (history : List (String × HistoryRecord))
    (view : String × String × String → Option ByteL) : Except String ByteL :=
  if historyStatus ≠ 200 then
    .error ("Failed to get history: " ++ toString historyStatus)
  else
    match scanOutputs view (outputsOf history prompt_id) with
    | some b => .ok b
    | none => .error "No images found in output"

/-- The environment one generate_image call runs against: the generated client
id, the backend response to queueing (carrying the prompt id on success), the
websocket message stream with its deadline fuel, and the history/view
responses. -/
structure Env where
  clientId : String
  queue : Workflow → String → Except String String
  fuel : Nat
  events : List WsMsg
  historyStatus : Nat
  history : List (String × HistoryRecord)
  view : String × String × String → Option ByteL

/-- The message generate_image prints when any stage raises. -/
def genFailMsg (e : String) : String := "[ComfyUI] Generation failed: " ++ e

/-- ComfyUIClient.generate_image: build the workflow, queue it, await
completion, fetch the artifact; any exception from a stage is caught, its
message printed (the second component collects printed lines) and None
returned. -/
def generate_image (env : Env) (prompt negative_prompt : String) (seed : Nat)
    (width height : Nat) : Option ByteL × List String :=
  let workflow := create_workflow prompt negative_prompt seed width height
  match env.queue workflow env.clientId with
  | .error e => (none, [genFailMsg e])
  | .ok prompt_id =>
    match wait_for_completion prompt_id env.fuel env.events with
    | .error e => (none, [genFailMsg e])
    | .ok _ =>
      match get_generated_image prompt_id env.historyStatus env.history env.view with
      | .error e => (none, [genFailMsg e])
      | .ok data => (some data, [])

/-! ## generate_sprites.py: seed derivation

get_sprite_seed hashes the entity name with MD5, takes the first eight hex
digits of the digest as a 32-bit base value, and adds a per-animation offset
and the frame index.  MD5 is embedded below over Nat with explicit reduction
modulo 2^32. -/

/-- UTF-8 encoding of one character (str.encode()). -/
def utf8Char (ch : Char) : List Nat :=
  let c := ch.toNat
  if c < 128 then [c]
  else if c < 2048 then [192 + c / 64, 128 + c % 64]
  else if c < 65536 then [224 + c / 4096, 128 + (c / 64) % 64, 128 + c % 64]
  else [240 + c / 262144, 128 + (c / 4096) % 64, 128 + (c / 64) % 64, 128 + c % 64]

/-- UTF-8 encoding of a string as a byte list. -/
def utf8Encode (s : String) : List Nat :=
  s.toList.flatMap utf8Char

/-- Reduction modulo 2^32, applied after every 32-bit addition. -/
def mod32 (x : Nat) : Nat := x % 4294967296

/-- Bitwise complement on 32-bit words. -/
def not32 (x : Nat) : Nat := Nat.xor x 4294967295

/-- 32-bit left rotation by c (0 < c < 32). -/
def rotl (x c : Nat) : Nat :=
  Nat.lor ((x <<< c) % 4294967296) (x >>> (32 - c))

def md5F (b c d : Nat) : Nat := Nat.lor (Nat.land b c) (Nat.land (not32 b) d)

def md5G (b c d : Nat) : Nat := Nat.lor (Nat.land d b) (Nat.land (not32 d) c)

def md5H (b c d : Nat) : Nat := Nat.xor b (Nat.xor c d)

def md5I (b c d : Nat) : Nat := Nat.xor c (Nat.lor b (not32 d))

/-- The 64 per-round sine-derived constants of MD5. -/
def md5K : List Nat :=
  [0xd76aa478, 0xe8c7b756, 0x242070db, 0xc1bdceee,
   0xf57c0faf, 0x4787c62a, 0xa8304613, 0xfd469501,
   0x698098d8, 0x8b44f7af, 0xffff5bb1, 0x895cd7be,
   0x6b901122, 0xfd987193, 0xa679438e, 0x49b40821,
   0xf61e2562, 0xc040b340, 0x265e5a51, 0xe9b6c7aa,
   0xd62f105d, 0x02441453, 0xd8a1e681, 0xe7d3fbc8,
   0x21e1cde6, 0xc33707d6, 0xf4d50d87, 0x455a14ed,
   0xa9e3e905, 0xfcefa3f8, 0x676f02d9, 0x8d2a4c8a,
   0xfffa3942, 0x8771f681, 0x6d9d6122, 0xfde5380c,
   0xa4beea44, 0x4bdecfa9, 0xf6bb4b60, 0xbebfbc70,
   0x289b7ec6, 0xeaa127fa, 0xd4ef3085, 0x04881d05,
   0xd9d4d039, 0xe6db99e5, 0x1fa27cf8, 0xc4ac5665,
   0xf4292244, 0x432aff97, 0xab9423a7, 0xfc93a039,
   0x655b59c3, 0x8f0ccc92, 0xffeff47d, 0x85845dd1,
   0x6fa87e4f, 0xfe2ce6e0, 0xa3014314, 0x4e0811a1,
   0xf7537e82, 0xbd3af235, 0x2ad7d2bb, 0xeb86d391]

/-- The 64 per-round shift amounts of MD5. -/
def md5S : List Nat :=
  [7, 12, 17, 22, 7, 12, 17, 22, 7, 12, 17, 22, 7, 12, 17, 22,
   5, 9, 14, 20, 5, 9, 14, 20, 5, 9, 14, 20, 5, 9, 14, 20,
   4, 11, 16, 23, 4, 11, 16, 23, 4, 11, 16, 23, 4, 11, 16, 23,
   6, 10, 15, 21, 6, 10, 15, 21, 6, 10, 15, 21, 6, 10, 15, 21]

structure MD5State where
  a : Nat
  b : Nat
  c : Nat
  d : Nat

/-- One of the 64 rounds applied to a chunk; `M g` is the g-th little-endian
message word of the chunk. -/
def md5Step (M : Nat → Nat) (st : MD5State) (i : Nat) : MD5State :=
  let fg : Nat × Nat :=
    if i < 16 then (md5F st.b st.c st.d, i)
    else if i < 32 then (md5G st.b st.c st.d, (5 * i + 1) % 16)
    else if i < 48 then (md5H st.b st.c st.d, (3 * i + 5) % 16)
    else (md5I st.b st.c st.d, (7 * i) % 16)
  let f := mod32 (fg.1 + st.a + md5K.getD i 0 + M fg.2)
  ⟨st.d, mod32 (st.b + rotl f (md5S.getD i 0)), st.b, st.c⟩

/-- Little-endian 32-bit word `g` of a 64-byte chunk. -/
def chunkWord (chunk : List Nat) (g : Nat) : Nat :=
  chunk.getD (4 * g) 0 + 256 * chunk.getD (4 * g + 1) 0 +
    65536 * chunk.getD (4 * g + 2) 0 + 16777216 * chunk.getD (4 * g + 3) 0

/-- Process one 64-byte chunk. -/
def md5Chunk (st : MD5State) (chunk : List Nat) : MD5State :=
  let fin := (List.range 64).foldl (md5Step (chunkWord chunk)) st
  ⟨mod32 (st.a + fin.a), mod32 (st.b + fin.b), mod32 (st.c + fin.c), mod32 (st.d + fin.d)⟩

/-- MD5 padding: a 0x80 byte, zeros up to 56 mod 64, then the bit length as a
little-endian 64-bit integer. -/
def md5Pad (msg : List Nat) : List Nat :=
  let z := (119 - msg.length % 64) % 64
  let bitLen := (8 * msg.length) % 18446744073709551616
  msg ++ [128] ++ List.replicate z 0 ++
    (List.range 8).map (fun i => (bitLen >>> (8 * i)) % 256)

/-- The four bytes of a 32-bit word in little-endian output order. -/
def wordLE (w : Nat) : List Nat :=
  [w % 256, w / 256 % 256, w / 65536 % 256, w / 16777216 % 256]

/-- The 16-byte MD5 digest of a byte list. -/
def md5Digest (msg : List Nat) : List Nat :=
  let padded := md5Pad msg
  let n := padded.length / 64
  let fin := (List.range n).foldl
    (fun st i => md5Chunk st ((padded.drop (64 * i)).take 64))
    ⟨0x67452301, 0xefcdab89, 0x98badcfe, 0x10325476⟩
  wordLE fin.a ++ wordLE fin.b ++ wordLE fin.c ++ wordLE fin.d

/-- int(hashlib.md5(entity_name.encode()).hexdigest()[:8], 16): the first four
digest bytes read as a big-endian 32-bit value. -/
def base_seed (entity_name : String) : Nat :=
  let dg := md5Digest (utf8Encode entity_name)
  dg.getD 0 0 * 16777216 + dg.getD 1 0 * 65536 + dg.getD 2 0 * 256 + dg.getD 3 0

/-- The per-animation offset dictionary with its .get(animation, 0) default. -/
def animationOffset (animation : String) : Nat :=
  if animation = "walk" then 1000
  else if animation = "idle" then 0
  else if animation = "attack" then 2000
  else 0

/-- generate_sprites.get_sprite_seed. -/
def get_sprite_seed (entity_name animation : String) (frame : Nat) : Nat :=
  base_seed entity_name + animationOffset animation + frame

/-! ## Concrete inputs used by witnesses and counterexamples -/

/-- A resampler standing in for PIL resize where its output is irrelevant. -/
def idResize : Img → Nat → Nat → Img := fun i _ _ => i

/-- A 1x1 fully opaque RGBA image. -/
def imgOpaque : Img := ⟨1, 1, "RGBA", fun _ _ => ⟨1, 2, 3, 255⟩⟩

/-- A 1x1 RGBA image whose single pixel has nonzero color but zero alpha. -/
def imgZeroAlpha : Img := ⟨1, 1, "RGBA", fun _ _ => ⟨10, 20, 30, 0⟩⟩

/-- A 0x0 RGBA image (PIL permits zero-size images). -/
def imgEmpty : Img := ⟨0, 0, "RGBA", fun _ _ => ⟨0, 0, 0, 0⟩⟩

/-- A 1x1 image in mode LA: luminance 5, alpha 200 (an image that carries
transparency without being RGBA). -/
def imgLA : Img := ⟨1, 1, "LA", fun _ _ => ⟨5, 200, 0, 0⟩⟩

/-! # Theorems -/

/-- Claim C6: pack applied to an empty frame sequence fails with the
empty-frame-set error for every entity and animation name, producing no sheet
or metadata. -/
theorem c6_pack_empty : ∀ (resize : Img → Nat → Nat → Img) (e a : String),
    pack resize [] e a = .error "Cannot pack empty frame list" := by
  intro resize e a
  rfl

/-- Claim C4, counterexample: two distinct animation identifiers for the same
entity CAN yield colliding seeds — any identifier outside the offset
dictionary falls back to offset 0, so "run" and "dance" collide at equal
frame index. -/
theorem c4_counterexample :
    "run" ≠ "dance" ∧
      get_sprite_seed "goblin" "run" 0 = get_sprite_seed "goblin" "dance" 0 := by
  constructor
  · decide
  · show base_seed "goblin" + animationOffset "run" + 0
        = base_seed "goblin" + animationOffset "dance" + 0
    have h1 : animationOffset "run" = 0 := by decide
    have h2 : animationOffset "dance" = 0 := by decide
    rw [h1, h2]

/-- Claim C4, amended: the seed derivation is a pure function of
(entity, animation, frame): repeated calls with identical inputs yield
identical seeds, and for a fixed (entity, animation) distinct frame indices
yield distinct seeds; distinct animation identifiers, however, may collide
(the offset bands are not disjoint). -/
theorem c4_seed_deterministic_frame_injective :
    ∀ (e a : String) (f g : Nat),
      get_sprite_seed e a f = get_sprite_seed e a f ∧
        (f ≠ g → get_sprite_seed e a f ≠ get_sprite_seed e a g) := by
  intro e a f g
  refine ⟨rfl, fun hne heq => hne ?_⟩
  simp only [get_sprite_seed] at heq
  omega

/-- Witness for C4 at a concrete input. -/
theorem c4_witness :
    (0 : Nat) ≠ 1 ∧
      get_sprite_seed "goblin" "walk" 0 ≠ get_sprite_seed "goblin" "walk" 1 :=
  ⟨by decide, (c4_seed_deterministic_frame_injective "goblin" "walk" 0 1).2 (by decide)⟩

/-- Claim C2: tracking terminates exactly as determined by the first
terminating message (completion sentinel or execution error) among the
messages arriving before the deadline; with no such message the timeout error
results.  Later messages are never consulted. -/
theorem c2_wait_trichotomy : ∀ (prompt_id : String) (fuel : Nat) (events : List WsMsg),
    wait_for_completion prompt_id fuel events
      = terminalResult ((events.take fuel).find? (isTerminal prompt_id)) := by
  intro prompt_id fuel events
  induction events generalizing fuel with
  | nil =>
    cases fuel <;> simp [wait_for_completion, terminalResult]
  | cons m rest ih =>
    cases fuel with
    | zero => simp [wait_for_completion, terminalResult]
    | succ k =>
      cases m with
      | executing node mpid =>
        by_cases h : node = none ∧ mpid = some prompt_id
        · have hb : isTerminal prompt_id (.executing node mpid) = true := by
            simp [isTerminal, h.1, h.2]
          simp [wait_for_completion, if_pos h, List.find?_cons, hb, terminalResult]
        · have hb : isTerminal prompt_id (.executing node mpid) = false := by
            simp only [isTerminal, Bool.and_eq_true, beq_iff_eq]
            simpa using h
          simp [wait_for_completion, if_neg h, List.find?_cons, hb, ih]
      | execError payload =>
        simp [wait_for_completion, List.find?_cons, isTerminal, terminalResult]
      | other =>
        simp [wait_for_completion, List.find?_cons, isTerminal, ih]

/-- Claim C1: for every environment and input, generate_image either succeeds
end to end — all three fallible stages succeed and the returned bytes are
exactly the fetch stages bytes, with nothing printed — or it returns none
together with the printed failure message of the first failing stage (the
failure short-circuits, is reported, and no partial result is returned). -/
theorem c1_generate_image_atomic :
    ∀ (env : Env) (prompt negative_prompt : String) (seed width height : Nat),
      (∃ data prompt_id,
        env.queue (create_workflow prompt negative_prompt seed width height) env.clientId
            = .ok prompt_id
          ∧ wait_for_completion prompt_id env.fuel env.events = .ok ()
          ∧ get_generated_image prompt_id env.historyStatus env.history env.view = .ok data
          ∧ generate_image env prompt negative_prompt seed width height = (some data, []))
      ∨ (∃ e,
        generate_image env prompt negative_prompt seed width height = (none, [genFailMsg e])
          ∧ (env.queue (create_workflow prompt negative_prompt seed width height) env.clientId
                = .error e
             ∨ ∃ prompt_id,
                env.queue (create_workflow prompt negative_prompt seed width height) env.clientId
                    = .ok prompt_id
                  ∧ (wait_for_completion prompt_id env.fuel env.events = .error e
                     ∨ (wait_for_completion prompt_id env.fuel env.events = .ok ()
                        ∧ get_generated_image prompt_id env.historyStatus env.history env.view
                            = .error e)))) := by
  intro env prompt negative_prompt seed width height
  cases hq : env.queue (create_workflow prompt negative_prompt seed width height) env.clientId with
  | error e =>
    exact Or.inr ⟨e, by simp [generate_image, hq], Or.inl rfl⟩
  | ok prompt_id =>
    cases hw : wait_for_completion prompt_id env.fuel env.events with
    | error e =>
      exact Or.inr ⟨e, by simp [generate_image, hq, hw], Or.inr ⟨prompt_id, rfl, Or.inl hw⟩⟩
    | ok u =>
      cases u
      cases hf : get_generated_image prompt_id env.historyStatus env.history env.view with
      | error e =>
        exact Or.inr ⟨e, by simp [generate_image, hq, hw, hf],
          Or.inr ⟨prompt_id, rfl, Or.inr ⟨hw, hf⟩⟩⟩
      | ok data =>
        exact Or.inl ⟨data, prompt_id, rfl, hw, hf, by simp [generate_image, hq, hw, hf]⟩

/-- The nested scan over output nodes equals the flat scan over all
descriptors in report order. -/
theorem scanOutputs_eq_scanImages_allDescs
    (view : String × String × String → Option ByteL) :
    ∀ outputs : List (String × NodeOutput),
      scanOutputs view outputs = scanImages view (allDescs outputs) := by
  intro outputs
  induction outputs with
  | nil => rfl
  | cons p rest ih =>
    obtain ⟨nodeId, out⟩ := p
    cases hImgs : out.images with
    | none => simp [scanOutputs, allDescs, hImgs, ih, List.flatMap_cons]
    | some imgs =>
      have happ : ∀ l1 l2 : List ImgDesc,
          scanImages view (l1 ++ l2)
            = match scanImages view l1 with
              | some b => some b
              | none => scanImages view l2 := by
        intro l1
        induction l1 with
        | nil => intro l2; rfl
        | cons d ds ihd =>
          intro l2
          simp only [List.cons_append, scanImages]
          cases view (viewParams d) <;> simp [ihd]
      simp only [scanOutputs, allDescs, hImgs, List.flatMap_cons, Option.getD_some]
      rw [show (allDescs rest = rest.flatMap (fun p => p.2.images.getD [])) from rfl] at ih
      rw [happ]
      cases scanImages view imgs <;> simp [ih]

/-- Claim C3, counterexample: when image descriptors exist but every
byte-retrieval fails, the retrieval stage raises the very same
"No images found in output" error it raises when no descriptors exist at
all — there is no distinct fetch-failure error. -/
theorem c3_counterexample :
    (allDescs (outputsOf
        [("p", ⟨[("9", ⟨some [⟨"a.png", none, none⟩]⟩)]⟩)] "p") ≠ []
      ∧ get_generated_image "p" 200
          [("p", ⟨[("9", ⟨some [⟨"a.png", none, none⟩]⟩)]⟩)] (fun _ => none)
          = .error "No images found in output")
    ∧ (allDescs (outputsOf [("p", ⟨[]⟩)] "p") = []
      ∧ get_generated_image "p" 200 [("p", ⟨[]⟩)] (fun _ => none)
          = .error "No images found in output") := by
  refine ⟨⟨?_, rfl⟩, ⟨rfl, rfl⟩⟩
  decide

/-- Claim C3, amended: with a 200 history response the retrieval stage scans
all output nodes image descriptors in report order and returns the bytes of
the first descriptor whose retrieval succeeds; when the history record is
missing, contains no image descriptors, or every descriptors retrieval
fails, it raises the single error "No images found in output" (the two
failure situations are not distinguished). -/
theorem c3_first_success :
    ∀ (prompt_id : String) (history : List (String × HistoryRecord))
      (view : String × String × String → Option ByteL),
      get_generated_image prompt_id 200 history view
        = descsResult view (allDescs (outputsOf history prompt_id)) := by
  intro prompt_id history view
  simp [get_generated_image, descsResult, scanOutputs_eq_scanImages_allDescs]

/-! Histogram accounting: each pixel contributes exactly one count to each
bands 256 bins, so a histograms total bin count is bands times pixels. -/

theorem sum_map_addN (l : List α) (f g : α → Nat) :
    (l.map (fun x => f x + g x)).sum = (l.map f).sum + (l.map g).sum := by
  induction l with
  | nil => simp
  | cons x xs ih => simp [ih]; omega

theorem sum_map_constN (l : List α) (c : Nat) :
    (l.map (fun _ => c)).sum = l.length * c := by
  induction l with
  | nil => simp
  | cons x xs ih => simp [ih, Nat.succ_mul]; omega

theorem sum_indicator_range (a : Nat) :
    ∀ n, ((List.range n).map (fun k => if a = k then 1 else 0)).sum
      = if a < n then 1 else 0 := by
  intro n
  induction n with
  | zero => simp
  | succ n ih =>
    rw [List.range_succ, List.map_append, List.sum_append, ih]
    simp only [List.map_cons, List.map_nil, List.sum_cons, List.sum_nil]
    split_ifs <;> omega

theorem channel_lt (c : Nat) (p : Pixel) : channel c p < 256 := by
  rcases c with _ | _ | _ | c <;> exact Fin.is_lt _

theorem countP_channel_sum (c : Nat) :
    ∀ l : List Pixel,
      ((List.range 256).map (fun k => l.countP (fun p => channel c p == k))).sum
        = l.length := by
  intro l
  induction l with
  | nil =>
    have h : (fun k => (([] : List Pixel).countP (fun p => channel c p == k)))
        = fun _ : Nat => 0 := by
      funext k
      exact List.countP_nil _
    rw [h, sum_map_constN, Nat.mul_zero, List.length_nil]
  | cons p rest ih =>
    have hrw : (fun k => (p :: rest).countP (fun q => channel c q == k))
        = fun k => rest.countP (fun q => channel c q == k)
            + if channel c p = k then 1 else 0 := by
      funext k
      rw [List.countP_cons]
      simp [beq_iff_eq]
    rw [hrw, sum_map_addN, ih, sum_indicator_range]
    simp [channel_lt c p]

theorem pixList_length (img : Img) :
    (pixList img).length = img.height * img.width := by
  rw [pixList, List.length_flatMap]
  have h : (List.length ∘ fun y => (List.range img.width).map (fun x => img.pix x y))
      = (fun _ : Nat => img.width) := by
    funext y
    simp
  rw [h, sum_map_constN, List.length_range]

theorem sum_histogram (img : Img) :
    (histogram img).sum = numBands img.mode * (img.height * img.width) := by
  rw [histogram, List.flatMap_def, List.sum_flatten, List.map_map]
  have h : (List.sum ∘ fun c => (List.range 256).map (fun k => histBin img c k))
      = fun c : Nat => (pixList img).length := by
    funext c
    simp only [Function.comp]
    exact countP_channel_sum c (pixList img)
  rw [h, sum_map_constN, List.length_range, pixList_length]

theorem numBands_pos (mode : String) : 0 < numBands mode := by
  rw [numBands]
  split_ifs <;> norm_num

theorem minSum_le_sum : ∀ a b : List Nat, minSum a b ≤ a.sum := by
  intro a
  induction a with
  | nil => intro b; cases b <;> exact Nat.le_refl 0
  | cons x xs ih =>
    intro b
    cases b with
    | nil => exact Nat.zero_le _
    | cons y ys =>
      simp only [minSum, List.sum_cons]
      exact Nat.add_le_add (Nat.min_le_left x y) (ih ys)

theorem pairSims_bounds :
    ∀ (hs : List (List Nat)) (s : Rat),
      pairSims hs = .ok s → 0 ≤ s ∧ s ≤ ((hs.length - 1 : Nat) : Rat) := by
  intro hs
  induction hs with
  | nil =>
    intro s h
    simp only [pairSims, Except.ok.injEq] at h
    subst h
    norm_num
  | cons h1 tl ih =>
    intro s h
    cases tl with
    | nil =>
      simp only [pairSims, Except.ok.injEq] at h
      subst h
      norm_num
    | cons h2 rest =>
      rw [pairSims] at h
      by_cases hz : h1.sum = 0
      · rw [if_pos hz] at h; exact absurd h (by simp)
      · rw [if_neg hz] at h
        cases heq : pairSims (h2 :: rest) with
        | error e => rw [heq] at h; exact absurd h (by simp)
        | ok s2 =>
          rw [heq] at h
          simp only [Except.ok.injEq] at h
          subst h
          obtain ⟨hs2lo, hs2hi⟩ := ih s2 heq
          have hdenpos : (0 : Rat) < ((h1.sum : Nat) : Rat) := by
            exact_mod_cast Nat.pos_of_ne_zero hz
          have hqlo : (0 : Rat) ≤ ((minSum h1 h2 : Nat) : Rat) / ((h1.sum : Nat) : Rat) :=
            div_nonneg (by positivity) (le_of_lt hdenpos)
          have hqhi : ((minSum h1 h2 : Nat) : Rat) / ((h1.sum : Nat) : Rat) ≤ 1 :=
            (div_le_one hdenpos).mpr (by exact_mod_cast minSum_le_sum h1 h2)
          constructor
          · exact add_nonneg hqlo hs2lo
          · have hlen : ((((h1 :: h2 :: rest).length - 1 : Nat)) : Rat)
                = (((h2 :: rest).length - 1 : Nat) : Rat) + 1 := by
              simp [List.length_cons]
            rw [hlen]
            have := add_le_add hqhi hs2hi
            linarith

theorem pairSims_ok_of_sums :
    ∀ hs : List (List Nat), (∀ h ∈ hs, h.sum ≠ 0) → ∃ s, pairSims hs = .ok s := by
  intro hs
  induction hs with
  | nil => exact fun _ => ⟨0, rfl⟩
  | cons h1 tl ih =>
    intro hall
    cases tl with
    | nil => exact ⟨0, rfl⟩
    | cons h2 rest =>
      obtain ⟨s2, hs2⟩ := ih (fun h hm => hall h (List.mem_cons_of_mem h1 hm))
      refine ⟨((minSum h1 h2 : Nat) : Rat) / ((h1.sum : Nat) : Rat) + s2, ?_⟩
      rw [pairSims, if_neg (hall h1 (List.mem_cons_self h1 _)), hs2]

/-- Inversion of validate_sprites on a non-empty list: how each returned
field is computed. -/
theorem validate_result_fields (f0 : Img) (tl : List Img) (r : ValidationOut) :
    validate_sprites (f0 :: tl) = .ok (.result r) →
      r.size_consistent
          = (f0 :: tl).all (fun f => f.width == f0.width && f.height == f0.height)
        ∧ r.has_transparency = (f0 :: tl).all (fun f => f.mode == "RGBA")
        ∧ r.frame_count = (f0 :: tl).length
        ∧ r.passes = (r.size_consistent && r.has_transparency
            && decide (r.visual_similarity > 1/2)) := by
  intro h
  rw [validate_sprites] at h
  by_cases hn : (f0 :: tl).length > 1
  · rw [if_pos hn] at h
    cases heq : pairSims ((f0 :: tl).map histogram) with
    | error e => rw [heq] at h; exact absurd h (by simp)
    | ok s =>
      rw [heq] at h
      simp only [Except.ok.injEq, ValidationResult.result.injEq] at h
      subst h
      exact ⟨rfl, rfl, rfl, rfl⟩
  · rw [if_neg hn] at h
    simp only [Except.ok.injEq, ValidationResult.result.injEq] at h
    subst h
    exact ⟨rfl, rfl, rfl, rfl⟩

set_option maxRecDepth 100000 in
/-- Claim C7, counterexample: a non-empty frame list need not yield a
ValidationResult — two zero-area frames make the first histogram sum zero and
the similarity computation fails with a division-by-zero error. -/
theorem c7_counterexample :
    validate_sprites [imgEmpty, imgEmpty] = .error "division by zero" := by
  rfl

/-- Claim C7, amended: validate applied to an empty frame list returns the
empty-frame error result (passes false); for every non-empty frame list whose
frames all have at least one pixel it returns a ValidationResult rather than
failing.  (A zero-area frame is the one further error condition, per the
counterexample.) -/
theorem c7_validate_total_on_positive_frames :
    validate_sprites [] = .ok .noFrames
      ∧ ∀ frames : List Img, frames ≠ [] →
          (∀ f ∈ frames, 0 < f.width * f.height) →
          ∃ r, validate_sprites frames = .ok (.result r) := by
  refine ⟨rfl, ?_⟩
  intro frames hne hpos
  have hsum : ∀ h ∈ frames.map histogram, h.sum ≠ 0 := by
    intro h hm
    rw [List.mem_map] at hm
    obtain ⟨f, hf, rfl⟩ := hm
    rw [sum_histogram]
    have h1 : 0 < numBands f.mode := numBands_pos f.mode
    have h2 : 0 < f.height * f.width := by
      have := hpos f hf
      rwa [Nat.mul_comm] at this
    positivity
  cases frames with
  | nil => exact absurd rfl hne
  | cons f0 tl =>
    cases tl with
    | nil => exact ⟨_, rfl⟩
    | cons f1 rest =>
      obtain ⟨s, hs⟩ := pairSims_ok_of_sums _ hsum
      rw [validate_sprites, if_pos (by simp), hs]
      exact ⟨_, rfl⟩

/-- Witness for C7 at a concrete input. -/
theorem c7_witness :
    ([imgOpaque] : List Img) ≠ []
      ∧ (∀ f ∈ ([imgOpaque] : List Img), 0 < f.width * f.height)
      ∧ ∃ r, validate_sprites [imgOpaque] = .ok (.result r) := by
  have hpos : ∀ f ∈ ([imgOpaque] : List Img), 0 < f.width * f.height := by
    intro f hf
    simp only [List.mem_singleton] at hf
    subst hf
    decide
  exact ⟨by simp, hpos, c7_validate_total_on_positive_frames.2 [imgOpaque] (by simp) hpos⟩

/-- Claim C9: for every list of two or more frames on which validate returns a
result, the visual-similarity score lies in the closed interval from 0 to 1. -/
theorem c9_similarity_bounds :
    ∀ (frames : List Img) (r : ValidationOut),
      2 ≤ frames.length → validate_sprites frames = .ok (.result r) →
      0 ≤ r.visual_similarity ∧ r.visual_similarity ≤ 1 := by
  intro frames r hlen h
  cases frames with
  | nil => simp at hlen
  | cons f0 tl =>
    cases tl with
    | nil => simp at hlen
    | cons f1 rest =>
      rw [validate_sprites, if_pos (by simp)] at h
      cases heq : pairSims ((f0 :: f1 :: rest).map histogram) with
      | error e => rw [heq] at h; exact absurd h (by simp)
      | ok s =>
        rw [heq] at h
        simp only [Except.ok.injEq, ValidationResult.result.injEq] at h
        subst h
        obtain ⟨hlo, hhi⟩ := pairSims_bounds _ s heq
        rw [List.length_map] at hhi
        have hd : (0 : Rat) < (((f0 :: f1 :: rest).length - 1 : Nat) : Rat) := by
          have : 1 ≤ (f0 :: f1 :: rest).length - 1 := by
            simp [List.length_cons]
          exact_mod_cast Nat.lt_of_lt_of_le Nat.zero_lt_one this
        constructor
        · exact div_nonneg hlo (le_of_lt hd)
        · exact (div_le_one hd).mpr hhi

set_option maxRecDepth 100000 in
/-- Witness for C9 at a concrete input. -/
theorem c9_witness :
    2 ≤ ([imgOpaque, imgOpaque] : List Img).length
      ∧ validate_sprites [imgOpaque, imgOpaque] = .ok (.result ⟨true, true, 2, 1, true⟩)
      ∧ 0 ≤ (⟨true, true, 2, 1, true⟩ : ValidationOut).visual_similarity
      ∧ (⟨true, true, 2, 1, true⟩ : ValidationOut).visual_similarity ≤ 1 := by
  have h : validate_sprites [imgOpaque, imgOpaque] = .ok (.result ⟨true, true, 2, 1, true⟩) := by
    have hsum : (histogram imgOpaque).sum = 4 := by decide
    have hmin : minSum (histogram imgOpaque) (histogram imgOpaque) = 4 := by decide
    have htail : pairSims [histogram imgOpaque] = .ok 0 := rfl
    have hpair : pairSims (List.map histogram [imgOpaque, imgOpaque]) = .ok 1 := by
      simp only [List.map_cons, List.map_nil]
      rw [pairSims, if_neg (by rw [hsum]; norm_num), htail, hmin, hsum]
      norm_num
    have hbody : validate_sprites [imgOpaque, imgOpaque]
        = (match pairSims (List.map histogram [imgOpaque, imgOpaque]) with
           | .error e => .error e
           | .ok s => .ok (.result ⟨true, true, 2, s / ((1 : Nat) : Rat),
               true && true && decide (s / ((1 : Nat) : Rat) > 1/2)⟩)) := rfl
    rw [hbody, hpair]
    norm_num [ValidationResult.result.injEq, ValidationOut.mk.injEq, decide_eq_true_eq]
  have hb := c9_similarity_bounds [imgOpaque, imgOpaque] ⟨true, true, 2, 1, true⟩ (by simp) h
  exact ⟨by simp, h, hb.1, hb.2⟩

/-- Claim C10: validate reports has-transparency exactly when every frames
mode is the string "RGBA", and any frame of a different mode (even an
alpha-carrying one such as LA) forces has-transparency false and with it an
overall failing verdict. -/
theorem c10_transparency_is_rgba_only :
    ∀ (frames : List Img) (r : ValidationOut),
      validate_sprites frames = .ok (.result r) →
      (r.has_transparency = true ↔ ∀ f ∈ frames, f.mode = "RGBA")
        ∧ ((∃ f ∈ frames, f.mode ≠ "RGBA") → r.passes = false) := by
  intro frames r h
  cases frames with
  | nil => exact absurd h (by simp [validate_sprites])
  | cons f0 tl =>
    obtain ⟨_, hht, _, hpass⟩ := validate_result_fields f0 tl r h
    have hiff : r.has_transparency = true ↔ ∀ f ∈ f0 :: tl, f.mode = "RGBA" := by
      rw [hht, List.all_eq_true]
      constructor
      · intro hall f hf
        exact beq_iff_eq.mp (hall f hf)
      · intro hall f hf
        exact beq_iff_eq.mpr (hall f hf)
    refine ⟨hiff, ?_⟩
    rintro ⟨f, hf, hmode⟩
    have hfalse : r.has_transparency = false := by
      cases hb : r.has_transparency with
      | false => rfl
      | true => exact absurd (hiff.mp hb f hf) hmode
    rw [hpass, hfalse]
    simp

set_option maxRecDepth 100000 in
/-- Witness for C10 at a concrete input: an LA-mode frame pair. -/
theorem c10_witness :
    validate_sprites [imgLA, imgLA] = .ok (.result ⟨true, false, 2, 1, false⟩)
      ∧ ¬(∀ f ∈ ([imgLA, imgLA] : List Img), f.mode = "RGBA")
      ∧ (⟨true, false, 2, 1, false⟩ : ValidationOut).passes = false := by
  have h : validate_sprites [imgLA, imgLA] = .ok (.result ⟨true, false, 2, 1, false⟩) := by
    have hsum : (histogram imgLA).sum = 2 := by decide
    have hmin : minSum (histogram imgLA) (histogram imgLA) = 2 := by decide
    have htail : pairSims [histogram imgLA] = .ok 0 := rfl
    have hpair : pairSims (List.map histogram [imgLA, imgLA]) = .ok 1 := by
      simp only [List.map_cons, List.map_nil]
      rw [pairSims, if_neg (by rw [hsum]; norm_num), htail, hmin, hsum]
      norm_num
    have hbody : validate_sprites [imgLA, imgLA]
        = (match pairSims (List.map histogram [imgLA, imgLA]) with
           | .error e => .error e
           | .ok s => .ok (.result ⟨true, false, 2, s / ((1 : Nat) : Rat),
               true && false && decide (s / ((1 : Nat) : Rat) > 1/2)⟩)) := rfl
    rw [hbody, hpair]
    norm_num [ValidationResult.result.injEq, ValidationOut.mk.injEq]
  have ht := c10_transparency_is_rgba_only [imgLA, imgLA] ⟨true, false, 2, 1, false⟩ h
  refine ⟨h, ?_, ?_⟩
  · intro hall
    have := ht.1.mpr hall
    simp at this
  · exact ht.2 ⟨imgLA, List.mem_cons_self _ _, by decide⟩

/-! Packing-loop invariants: pasting never changes the canvas dimensions, and
the metadata list accumulates one entry per frame, depending only on the
frame index and the first frames size. -/

theorem packStep_foldl_dims (resize : Img → Nat → Nat → Img) (sw sh cols : Nat) :
    ∀ (ps : List (Nat × Img)) (img : Img) (acc : List FrameMeta),
      ((ps.foldl (packStep resize sw sh cols) (img, acc)).1.width = img.width
        ∧ (ps.foldl (packStep resize sw sh cols) (img, acc)).1.height = img.height) := by
  intro ps
  induction ps with
  | nil => intro img acc; exact ⟨rfl, rfl⟩
  | cons p ps ih =>
    intro img acc
    have h := ih (packStep resize sw sh cols (img, acc) p).1
      (packStep resize sw sh cols (img, acc) p).2
    exact ⟨h.1, h.2⟩

theorem packStep_foldl_metas (resize : Img → Nat → Nat → Img) (sw sh cols : Nat) :
    ∀ (ps : List (Nat × Img)) (img : Img) (acc : List FrameMeta),
      (ps.foldl (packStep resize sw sh cols) (img, acc)).2
        = acc ++ ps.map (fun p => ⟨(p.1 % cols) * sw, (p.1 / cols) * sh, sw, sh, 150⟩) := by
  intro ps
  induction ps with
  | nil => intro img acc; simp
  | cons p ps ih =>
    intro img acc
    have h := ih (packStep resize sw sh cols (img, acc) p).1
      (packStep resize sw sh cols (img, acc) p).2
    simp only [List.foldl_cons, List.map_cons]
    rw [h]
    show (acc ++ [⟨(p.1 % cols) * sw, (p.1 / cols) * sh, sw, sh, 150⟩]) ++ _ = _
    rw [List.append_assoc]
    rfl

/-- Claim C5: for a non-empty list of frames all of size w by h, pack succeeds
and returns a canvas of exactly (2w, ceil(n/2)*h) when n is more than one and
(w, h) when n equals one, with frame i recorded at position
((i mod 2)*w, (i div 2)*h), size (w, h) and constant duration 150. -/
theorem c5_pack_layout :
    ∀ (resize : Img → Nat → Nat → Img) (frames : List Img) (e a : String) (w h : Nat),
      frames ≠ [] → (∀ f ∈ frames, f.width = w ∧ f.height = h) →
      ∃ sheet meta, pack resize frames e a = .ok (sheet, meta)
        ∧ (frames.length > 1 →
            sheet.width = 2 * w ∧ sheet.height = ((frames.length + 1) / 2) * h)
        ∧ (frames.length = 1 → sheet.width = w ∧ sheet.height = h)
        ∧ meta.frames.length = frames.length
        ∧ (∀ i, i < frames.length →
            meta.frames[i]? = some ⟨(i % 2) * w, (i / 2) * h, w, h, 150⟩) := by
  intro resize frames e a w h hne hsize
  cases frames with
  | nil => exact absurd rfl hne
  | cons f0 rest =>
    obtain ⟨hw0, hh0⟩ := hsize f0 (List.mem_cons_self _ _)
    subst hw0
    subst hh0
    refine ⟨_, _, rfl, ?_, ?_, ?_, ?_⟩
    · intro hgt
      have hcols : (if (f0 :: rest).length > 1 then 2 else 1) = 2 := if_pos hgt
      rw [hcols]
      have hd := packStep_foldl_dims resize f0.width f0.height 2 (f0 :: rest).enum
        (Img.new (f0.width * 2) (f0.height * (((f0 :: rest).length + 2 - 1) / 2))) []
      constructor
      · rw [hd.1]
        show f0.width * 2 = 2 * f0.width
        exact Nat.mul_comm _ _
      · rw [hd.2]
        show f0.height * (((f0 :: rest).length + 2 - 1) / 2)
          = (((f0 :: rest).length + 1) / 2) * f0.height
        have h21 : (f0 :: rest).length + 2 - 1 = (f0 :: rest).length + 1 := by omega
        rw [h21, Nat.mul_comm]
    · intro h1
      have hgt : ¬((f0 :: rest).length > 1) := by omega
      have hcols : (if (f0 :: rest).length > 1 then 2 else 1) = 1 := if_neg hgt
      rw [hcols]
      have hd := packStep_foldl_dims resize f0.width f0.height 1 (f0 :: rest).enum
        (Img.new (f0.width * 1)
          (f0.height * (((f0 :: rest).length + 1 - 1) / 1))) []
      constructor
      · rw [hd.1]
        show f0.width * 1 = f0.width
        exact Nat.mul_one _
      · rw [hd.2]
        show f0.height * (((f0 :: rest).length + 1 - 1) / 1) = f0.height
        rw [h1]
        norm_num
    · rw [packStep_foldl_metas]
      simp [List.enum_length]
    · intro i hi
      rw [packStep_foldl_metas]
      have henum : ((f0 :: rest).enum.map
            (fun p : Nat × Img => (⟨(p.1 % (if (f0 :: rest).length > 1 then 2 else 1)) * f0.width,
              (p.1 / (if (f0 :: rest).length > 1 then 2 else 1)) * f0.height,
              f0.width, f0.height, 150⟩ : FrameMeta)))
          = (List.range (f0 :: rest).length).map
            (fun i : Nat => (⟨(i % (if (f0 :: rest).length > 1 then 2 else 1)) * f0.width,
              (i / (if (f0 :: rest).length > 1 then 2 else 1)) * f0.height,
              f0.width, f0.height, 150⟩ : FrameMeta)) := by
        rw [← List.enum_map_fst (f0 :: rest), List.map_map]
        rfl
      rw [List.nil_append, henum, List.getElem?_map, List.getElem?_range hi]
      by_cases hgt : (f0 :: rest).length > 1
      · rw [if_pos hgt]
        rfl
      · have h1 : (f0 :: rest).length = 1 := by
          have := List.length_pos.mpr (List.cons_ne_nil f0 rest)
          omega
        have hi0 : i = 0 := by omega
        rw [if_neg hgt, hi0]
        norm_num

/-- Witness for C5 at a concrete input: three 1x1 frames. -/
theorem c5_witness :
    ([imgOpaque, imgOpaque, imgOpaque] : List Img) ≠ []
      ∧ (∀ f ∈ ([imgOpaque, imgOpaque, imgOpaque] : List Img), f.width = 1 ∧ f.height = 1)
      ∧ ∃ sheet meta, pack idResize [imgOpaque, imgOpaque, imgOpaque] "goblin" "walk"
            = .ok (sheet, meta)
          ∧ (([imgOpaque, imgOpaque, imgOpaque] : List Img).length > 1 →
              sheet.width = 2 * 1
                ∧ sheet.height = ((([imgOpaque, imgOpaque, imgOpaque] : List Img).length + 1) / 2) * 1)
          ∧ (([imgOpaque, imgOpaque, imgOpaque] : List Img).length = 1 →
              sheet.width = 1 ∧ sheet.height = 1)
          ∧ meta.frames.length = ([imgOpaque, imgOpaque, imgOpaque] : List Img).length
          ∧ (∀ i, i < ([imgOpaque, imgOpaque, imgOpaque] : List Img).length →
              meta.frames[i]? = some ⟨(i % 2) * 1, (i / 2) * 1, 1, 1, 150⟩) := by
  have hsize : ∀ f ∈ ([imgOpaque, imgOpaque, imgOpaque] : List Img),
      f.width = 1 ∧ f.height = 1 := by
    intro f hf
    simp only [List.mem_cons, List.not_mem_nil, or_false] at hf
    rcases hf with rfl | rfl | rfl <;> exact ⟨rfl, rfl⟩
  exact ⟨by simp, hsize,
    c5_pack_layout idResize [imgOpaque, imgOpaque, imgOpaque] "goblin" "walk" 1 1
      (by simp) hsize⟩

/-- Pixel of a pasted image inside the pasted region. -/
theorem paste_pix_in (canvas im : Img) (ox oy : Nat) (useMask : Bool) (x y : Nat)
    (hx1 : ox ≤ x) (hx2 : x < ox + im.width) (hy1 : oy ≤ y) (hy2 : y < oy + im.height) :
    (paste canvas im ox oy useMask).pix x y
      = (if useMask then
           maskCombine (toRGBA im.mode (im.pix (x - ox) (y - oy))) (canvas.pix x y)
         else toRGBA im.mode (im.pix (x - ox) (y - oy))) := by
  show (if ox ≤ x ∧ x < ox + im.width ∧ oy ≤ y ∧ y < oy + im.height then _ else _) = _
  rw [if_pos ⟨hx1, hx2, hy1, hy2⟩]

/-- Claim C8, counterexample: with the input already at the target size, paste
with the image itself as mask composites onto the transparent canvas, so a
pixel with zero alpha and nonzero color is not preserved; and a zero-size
input of a different size makes the scale computation divide by zero instead
of returning an image. -/
theorem c8_counterexample :
    (∃ o, normalize_sprite idResize imgZeroAlpha 1 1 = .ok o
      ∧ o.width = 1 ∧ o.height = 1 ∧ o.pix 0 0 ≠ imgZeroAlpha.pix 0 0)
    ∧ normalize_sprite idResize imgEmpty 1 1 = .error "division by zero" := by
  refine ⟨⟨normalizePaste 1 1 imgZeroAlpha, ?_, rfl, rfl, ?_⟩, ?_⟩
  · rfl
  · decide
  · rfl

/-- Claim C8, amended: for every image with positive dimensions (or already
exactly the target size), normalize returns an image of exactly the target
size; and when the input is already at the target size, every pixel at which
an RGBA input is fully opaque equals the corresponding input pixel, while a
non-RGBA input is pasted without a mask after PIL converts it to the RGBA
canvas mode, so each of its output pixels equals the RGBA conversion of the
corresponding input pixel.  (Zero- or partial-alpha pixels of an RGBA input
are composited onto the transparent canvas and may change, per the
counterexample.) -/
theorem c8_normalize_size_and_pixels :
    ∀ (resize : Img → Nat → Nat → Img) (image : Img) (tw th : Nat),
      ((image.width = tw ∧ image.height = th) ∨ (0 < image.width ∧ 0 < image.height)) →
      ∃ o, normalize_sprite resize image tw th = .ok o
        ∧ o.width = tw ∧ o.height = th
        ∧ (∀ x y, x < tw → y < th → image.width = tw → image.height = th →
            ((image.mode = "RGBA" → (image.pix x y).a.val = 255 →
                o.pix x y = image.pix x y)
              ∧ (image.mode ≠ "RGBA" →
                o.pix x y = toRGBA image.mode (image.pix x y)))) := by
  intro resize image tw th hyp
  by_cases hsz : image.width = tw ∧ image.height = th
  · refine ⟨normalizePaste tw th image, ?_, rfl, rfl, ?_⟩
    · rw [normalize_sprite, if_pos hsz]
    · intro x y hx hy hwx hhy
      obtain ⟨hw, hh⟩ := hsz
      have hox : (tw - image.width) / 2 = 0 := by omega
      have hoy : (th - image.height) / 2 = 0 := by omega
      have hin := paste_pix_in (Img.new tw th) image 0 0 (image.mode == "RGBA") x y
        (Nat.zero_le x) (by rw [Nat.zero_add, hw]; exact hx) (Nat.zero_le y)
        (by rw [Nat.zero_add, hh]; exact hy)
      constructor
      · intro hrgba halpha
        show (paste (Img.new tw th) image ((tw - image.width) / 2) ((th - image.height) / 2)
          (image.mode == "RGBA")).pix x y = image.pix x y
        rw [hox, hoy, hin, if_pos (beq_iff_eq.mpr hrgba)]
        simp only [Nat.sub_zero]
        rw [hrgba]
        show maskCombine (toRGBA "RGBA" (image.pix x y)) ((Img.new tw th).pix x y)
          = image.pix x y
        show maskCombine (image.pix x y) ((Img.new tw th).pix x y) = image.pix x y
        simp only [maskCombine]
        rw [if_pos halpha]
      · intro hnot
        show (paste (Img.new tw th) image ((tw - image.width) / 2) ((th - image.height) / 2)
          (image.mode == "RGBA")).pix x y = toRGBA image.mode (image.pix x y)
        rw [hox, hoy, hin, if_neg (fun hbeq => hnot (beq_iff_eq.mp hbeq))]
        simp only [Nat.sub_zero]
  · rcases hyp with hsz2 | ⟨hw, hh⟩
    · exact absurd hsz2 hsz
    · refine ⟨normalizePaste tw th (resize image
          ((min ((tw : Rat) / (image.width : Rat)) ((th : Rat) / (image.height : Rat))
            * (image.width : Rat)).floor.toNat)
          ((min ((tw : Rat) / (image.width : Rat)) ((th : Rat) / (image.height : Rat))
            * (image.height : Rat)).floor.toNat)), ?_, rfl, rfl, ?_⟩
      · rw [normalize_sprite, if_neg hsz, if_neg (by omega)]
      · intro x y hx hy hwx hhy
        exact absurd ⟨hwx, hhy⟩ hsz

/-- Witness for C8 at a concrete input. -/
theorem c8_witness :
    ((imgOpaque.width = 1 ∧ imgOpaque.height = 1)
        ∨ (0 < imgOpaque.width ∧ 0 < imgOpaque.height))
      ∧ ∃ o, normalize_sprite idResize imgOpaque 1 1 = .ok o
          ∧ o.width = 1 ∧ o.height = 1
          ∧ (∀ x y, x < 1 → y < 1 → imgOpaque.width = 1 → imgOpaque.height = 1 →
              ((imgOpaque.mode = "RGBA" → (imgOpaque.pix x y).a.val = 255 →
                  o.pix x y = imgOpaque.pix x y)
                ∧ (imgOpaque.mode ≠ "RGBA" →
                  o.pix x y = toRGBA imgOpaque.mode (imgOpaque.pix x y)))) :=
  ⟨Or.inl ⟨rfl, rfl⟩,
    c8_normalize_size_and_pixels idResize imgOpaque 1 1 (Or.inl ⟨rfl, rfl⟩)⟩

end PocSprite
